import Mathlib

/-!
Verification of the crawler core of the Search-Engine repository.

The definitions below are shallow embeddings of the Python sources:
  * `src/crawler/robots_parser.py`            (class RobotsParser)
  * `src/crawler/crawler_policies/politeness_policy.py`
  * `src/crawler/page_fetcher.py`             (class PageFetcher)
  * `src/crawler/crawler_manager.py`          (class CrawlerManager)

Python strings are modeled as `List Char` (hosts and URLs, on which the
claims only use equality, stay `String`); clock times and sleep durations
are naturals (the sources use seconds).  All definitions are structurally
recursive so that every model evaluates on concrete inputs.
-/

namespace Crawler

/-! ## Python string primitives, modeled over `List Char` -/

/-- Characters stripped by Python `str.strip()` (ASCII whitespace; 11 and
12 are vertical tab and form feed). -/
def isSpaceC (c : Char) : Bool :=
  c == ' ' || c == '\t' || c == '\n' || c == '\r' || c.toNat == 11 || c.toNat == 12

/-- Model of Python `str.strip()`. -/
def trimL (s : List Char) : List Char :=
  ((s.dropWhile isSpaceC).reverse.dropWhile isSpaceC).reverse

/-- ASCII lower-casing of one character (the only case change exercised by
the sources, whose directive keywords are ASCII). -/
def lowerC (c : Char) : Char :=
  if 65 ≤ c.toNat && c.toNat ≤ 90 then Char.ofNat (c.toNat + 32) else c

/-- Model of Python `str.lower()`. -/
def lowerL (s : List Char) : List Char :=
  s.map lowerC

/-- Model of Python `s.startswith(pre)`. -/
def pyStartsWith (s pre : List Char) : Bool :=
  pre.isPrefixOf s

/-- Model of Python `s.split(sep)` for a one-character separator (the
sources only split on `':'` and on line breaks). -/
def splitChar (sep : Char) : List Char → List (List Char)
  | [] => [[]]
  | c :: rest =>
    if c == sep then [] :: splitChar sep rest
    else
      match splitChar sep rest with
      | h :: t => (c :: h) :: t
      | [] => [[c]]

/-- Join with a one-character separator (used to model
`s.split(':', 1)[1]`, which keeps every later colon). -/
def joinChar (sep : Char) : List (List Char) → List Char
  | [] => []
  | [x] => x
  | x :: y :: t => x ++ sep :: joinChar sep (y :: t)

/-- Model of Python `s.split(':')[1]`: the text between the first and the
second colon.  Every caller first checks a `startswith` that guarantees a
colon, so the no-colon default `[]` is dead code. -/
def pySplitSecond (s : List Char) : List Char :=
  match splitChar ':' s with
  | _ :: x :: _ => x
  | _ => []

/-- Model of Python `s.split(':', 1)[1]`: everything after the first
colon. -/
def pySplitRest (s : List Char) : List Char :=
  match splitChar ':' s with
  | _ :: rest => joinChar ':' rest
  | [] => []

/-- Model of Python `int(s)` / `float(s)` restricted to the unsigned
decimal numerals occurring in this development: `some n` for a
(whitespace-padded) digit string, `none` (the call raises) otherwise. -/
def pyNum (s : List Char) : Option Nat :=
  let t := trimL s
  if t.isEmpty then none
  else if t.all Char.isDigit then some (t.foldl (fun a c => a * 10 + (c.toNat - 48)) 0)
  else none

/-! ## A model of the regular expressions produced by `re.escape`

`robots_parser.RobotsParser._parse_rule` stores `re.escape(path)` and
`is_allowed` tests the stored pattern with `re.match(rule, path)`.  We
embed the fragment of Python's regex language that is relevant: literal
characters, backslash escapes, `c*`, `$` and `.`; `re.match` anchors at
the start of the subject and succeeds on any prefix match. -/

/-- Characters escaped by Python 3.7+ `re.escape` (its
`_special_chars_map`): `()[]` braces `?*+-|^$\.&~#` and the whitespace
characters.  Braces and the vertical-tab / form-feed characters are
written by code point. -/
def reSpecial (c : Char) : Bool :=
  c ∈ ['(', ')', '[', ']', '?', '*', '+', '-', '|', '^', '$', '\\', '.', '&', '~', '#', ' ', '\t', '\n', '\r']
  || c.toNat == 123 || c.toNat == 125 || c.toNat == 11 || c.toNat == 12

/-- Model of Python `re.escape`: prefix every special character with a
backslash. -/
def reEscapeL : List Char → List Char
  | [] => []
  | c :: rest => (if reSpecial c then ['\\', c] else [c]) ++ reEscapeL rest

/-- Tokens of the embedded regex fragment. -/
inductive Tok where
  | lit (c : Char)
  | star (c : Char)
  | dollar
  | dot
deriving DecidableEq, Repr

/-- Lex a regex pattern into tokens: a backslash makes the next character
a literal, a character followed by `*` becomes a starred atom, unescaped
`$` and `.` keep their regex meaning, everything else is a literal. -/
def lexRe : List Char → List Tok
  | [] => []
  | [c] =>
    if c = '\\' then [.lit '\\']
    else if c = '$' then [.dollar]
    else if c = '.' then [.dot]
    else [.lit c]
  | c :: d :: rest =>
    if c = '\\' then .lit d :: lexRe rest
    else if d = '*' then .star c :: lexRe rest
    else (if c = '$' then Tok.dollar else if c = '.' then Tok.dot else .lit c) :: lexRe (d :: rest)

/-- Matching of a starred atom `c*` followed by a continuation `f` (the
match of the remaining tokens): try consuming `0, 1, 2, …` copies of
`c`. -/
def matchStar (c : Char) (f : List Char → Bool) : List Char → Bool
  | [] => f []
  | a :: s => f (a :: s) || (c == a && matchStar c f s)

/-- Anchored prefix matching of a token list against a subject, the
semantics of Python `re.match` (truthy iff a match starts at position 0;
the pattern need not consume the whole subject). -/
def matchToks : List Tok → List Char → Bool
  | [], _ => true
  | .lit c :: ts, s =>
    match s with
    | [] => false
    | a :: s2 => c == a && matchToks ts s2
  | .dot :: ts, s =>
    match s with
    | [] => false
    | _ :: s2 => matchToks ts s2
  | .dollar :: ts, s => s.isEmpty && matchToks ts s
  | .star c :: ts, s => matchStar c (matchToks ts) s

/-- Model of `re.match(pattern, subject)` as used by `is_allowed`. -/
def reMatch (pattern subject : List Char) : Bool :=
  matchToks (lexRe pattern) subject

/-! ## `robots_parser.RobotsParser`

State of `RobotsParser`: the `rules` dict (ordered `disallow` / `allow`
pattern lists, already `re.escape`d), the optional `crawl_delay` and the
collected `sitemaps`.  `parse_robots` iterates over the lines of the file
keeping `current_user_agent`; a rule line is handed to `_parse_rule` when
`current_user_agent` is truthy and `self.user_agent == '*' or
current_user_agent == self.user_agent`.  A malformed `Crawl-delay` value
makes `int(...)` raise, which we model with `Except Unit` (`.error ()` is
an escaping `ValueError`). -/

structure RPState where
  disallow : List (List Char)
  allow : List (List Char)
  crawl_delay : Option Nat
  sitemaps : List (List Char)
deriving DecidableEq, Repr

def RPState.empty : RPState := ⟨[], [], none, []⟩

/-- Per-line syntactic effect computed by `_parse_rule` (independent of
the user-agent grouping, which is decided by the caller
`parse_robots`). -/
inductive RDir where
  | addDisallow (pat : List Char)
  | addAllow (pat : List Char)
  | setDelay (n : Nat)
  | badDelay
  | noop
deriving DecidableEq, Repr

/-- Translation of the `RobotsParser._parse_rule` body on one (stripped)
line: `Disallow:` / `Allow:` append `re.escape(path)` when the path value
is non-empty, `Crawl-delay:` parses the value with `int(...)` (raising on
failure), anything else is ignored. -/
def classifyDir (line : List Char) : RDir :=
  if pyStartsWith (lowerL line) "disallow:".toList then
    let path := trimL (pySplitRest line)
    if path.isEmpty then .noop else .addDisallow (reEscapeL path)
  else if pyStartsWith (lowerL line) "allow:".toList then
    let path := trimL (pySplitRest line)
    if path.isEmpty then .noop else .addAllow (reEscapeL path)
  else if pyStartsWith (lowerL line) "crawl-delay:".toList then
    match pyNum (trimL (pySplitRest line)) with
    | some n => .setDelay n
    | none => .badDelay
  else .noop

/-- One line of robots.txt after the user-agent-independent syntactic
tests of `parse_robots` have been evaluated: blank/comment lines, a
`User-agent:` declaration carrying `line.split(':')[1].strip()`, or any
other line carrying its `_parse_rule` effect together with the result of
the `sitemap:` prefix test and the `Sitemap` payload
`line.split(':', 1)[1].strip()`. -/
inductive RLine where
  | blank
  | uaDecl (tok : List Char)
  | plain (dir : RDir) (isSitemap : Bool) (payload : List Char)
deriving DecidableEq, Repr

def classifyLine (rawLine : List Char) : RLine :=
  let line := trimL rawLine
  if line.isEmpty || pyStartsWith line "#".toList then .blank
  else if pyStartsWith (lowerL line) "user-agent:".toList then
    .uaDecl (trimL (pySplitSecond line))
  else
    .plain (classifyDir line) (pyStartsWith (lowerL line) "sitemap:".toList)
      (trimL (pySplitRest line))

/-- Fold state of `parse_robots`: `current_user_agent` and the parser
fields. -/
structure RParse where
  cur : Option (List Char)
  st : RPState
deriving DecidableEq, Repr

def applyDir (st : RPState) : RDir → Except Unit RPState
  | .addDisallow p => .ok { st with disallow := st.disallow ++ [p] }
  | .addAllow p => .ok { st with allow := st.allow ++ [p] }
  | .setDelay n => .ok { st with crawl_delay := some n }
  | .badDelay => .error ()
  | .noop => .ok st

/-- The `elif` chain of `parse_robots` on one classified line.  Note the
source's applicability test: `self.user_agent == '*' or
current_user_agent == self.user_agent`, guarded by the truthiness of
`current_user_agent`; `Sitemap:` lines are only collected when that rule
branch is not taken. -/
def robotsStep (ua : List Char) (p : RParse) (l : RLine) : Except Unit RParse :=
  match l with
  | .blank => .ok p
  | .uaDecl tok => .ok { p with cur := some tok }
  | .plain dir isSm payload =>
    match p.cur with
    | some c =>
      if (!(c == [])) && ((ua == "*".toList) || (c == ua)) then
        (applyDir p.st dir).map (fun st => { p with st := st })
      else if isSm then
        .ok { p with st := { p.st with sitemaps := p.st.sitemaps ++ [payload] } }
      else .ok p
    | none =>
      if isSm then
        .ok { p with st := { p.st with sitemaps := p.st.sitemaps ++ [payload] } }
      else .ok p

/-- Translation of `RobotsParser.parse_robots(robots_text)` for the
configured agent `ua`.  Lines are split on line breaks (the Python
`splitlines`; the inputs under study use `\n`), classified, and folded
through the `elif` chain; a `ValueError` escaping from `_parse_rule`
aborts the whole parse. -/
def parse_robots (ua text : List Char) : Except Unit RPState :=
  Except.map RParse.st
    (((splitChar '\n' text).map classifyLine).foldlM (robotsStep ua) ⟨none, RPState.empty⟩)

/-- Translation of `RobotsParser.is_allowed` after the
`urlparse(url).path` projection: `Allow` patterns are scanned first (any
match returns `True`), then `Disallow` patterns (any match returns
`False`), and `True` is returned when no rule matches. -/
def is_allowed (st : RPState) (path : List Char) : Bool :=
  if st.allow.any (fun r => reMatch r path) then true
  else if st.disallow.any (fun r => reMatch r path) then false
  else true

/-! ## `crawler_policies.politeness_policy`

The module defines its own `RobotsParser` (called `PPRobots` here to keep
the two robots implementations apart): construction fetches robots.txt;
on HTTP 200 the body is parsed into `disallowed_paths` / `crawl_delay`,
on a non-200 status nothing is parsed (the parser stays empty), and any
exception — from the request or from `float(...)` on a malformed
`Crawl-delay` — escapes the constructor as a `RuntimeError`. -/

structure PPRobots where
  disallowed_paths : List (List Char)
  crawl_delay : Option Nat
deriving DecidableEq, Repr

def PPRobots.empty : PPRobots := ⟨[], none⟩

/-- One line of `RobotsParser.parse_robots_txt` in
`politeness_policy.py`.  The fold state is `(applicable?, parser)`:
`applicable` is unbound (`none`) until the first `User-agent:` line, and
a rule line read while it is unbound raises `NameError` (modeled
`.error`), as does `float(...)` on a malformed `Crawl-delay` value.  The
user-agent token is `line.split(':', 1)[1].strip()` and a group is
applicable iff its token is `*` or equals the configured agent. -/
def ppStep (ua : List Char) (acc : Option Bool × PPRobots) (rawLine : List Char) :
    Except Unit (Option Bool × PPRobots) :=
  let line := trimL rawLine
  if line.isEmpty || pyStartsWith line "#".toList then .ok acc
  else if pyStartsWith (lowerL line) "user-agent:".toList then
    let tok := trimL (pySplitRest line)
    .ok (some ((tok == "*".toList) || (tok == ua)), acc.2)
  else
    match acc.1 with
    | none => .error ()
    | some app =>
      if app && pyStartsWith (lowerL line) "disallow:".toList then
        let path := trimL (pySplitRest line)
        if path.isEmpty then .ok acc
        else .ok (some app, { acc.2 with disallowed_paths := acc.2.disallowed_paths ++ [path] })
      else if app && pyStartsWith (lowerL line) "crawl-delay:".toList then
        match pyNum (trimL (pySplitRest line)) with
        | some n => .ok (some app, { acc.2 with crawl_delay := some n })
        | none => .error ()
      else .ok acc

/-- Translation of `RobotsParser.parse_robots_txt` in
`politeness_policy.py`. -/
def ppParse (ua text : List Char) : Except Unit PPRobots :=
  Except.map Prod.snd ((splitChar '\n' text).foldlM (ppStep ua) (none, PPRobots.empty))

/-- Translation of the politeness-policy `RobotsParser.can_fetch` after
the `urlparse(url).path` projection: the path is denied iff it starts
with some recorded disallowed path. -/
def ppCanFetchPath (r : PPRobots) (path : List Char) : Bool :=
  !(r.disallowed_paths.any (fun d => pyStartsWith path d))

/-- Outcome of the HTTP GET for a host's robots.txt: a status code with a
body, or an exception (network error / timeout). -/
inductive HttpOutcome where
  | status (code : Nat) (body : List Char)
  | exc

/-- Constructing the politeness-policy `RobotsParser` for one host:
`none` models the constructor raising (request exception, or a parse
error re-raised as `RuntimeError`); on a non-200 status the body is not
parsed and the parser stays empty. -/
def ppResolve (ua : List Char) (o : HttpOutcome) : Option PPRobots :=
  match o with
  | .exc => none
  | .status code body =>
    if code == 200 then (ppParse ua body).toOption else some PPRobots.empty

/-- Translation of `PolitenessPolicy.can_fetch`.  The state is the
`robots_cache` dict (host → parser, modeled as an association list whose
keys are inserted at most once).  The result is the allow/deny answer,
the updated cache, and the number of robots.txt fetches this call issued.
On a cache miss the parser is constructed (one fetch); a successful
construction is cached, a raising construction is answered `True`
WITHOUT caching. -/
def pp_can_fetch (ua : List Char) (oracle : String → HttpOutcome)
    (cache : List (String × PPRobots)) (host : String) (path : List Char) :
    Bool × List (String × PPRobots) × Nat :=
  match cache.lookup host with
  | some r => (ppCanFetchPath r path, cache, 0)
  | none =>
    match ppResolve ua (oracle host) with
    | some r => (ppCanFetchPath r path, (host, r) :: cache, 1)
    | none => (true, cache, 1)

/-! ## `page_fetcher.PageFetcher`

`PageFetcher.is_allowed_by_robots` delegates to the standard library
`urllib.robotparser.RobotFileParser`, whose failure handling differs from
the politeness-policy parser above and decides the fail-open question for
this path, so its relevant state is modeled concretely: `read()` catches
`HTTPError` internally (401/403 set `disallow_all`, other 4xx set
`allow_all`, anything else leaves every flag unset and never parses, so
`last_checked` stays 0) and only `URLError`/timeout escapes; `can_fetch`
returns `False` under `disallow_all`, `True` under `allow_all`, `False`
while `last_checked` is 0, and otherwise consults the parsed entries
(abstracted here as `entriesAllow`, only reachable after a 2xx
parse). -/

structure RFP where
  disallow_all : Bool
  allow_all : Bool
  last_checked : Bool
  entriesAllow : String → Bool

/-- Model of `RobotFileParser.can_fetch(useragent, url)`: the flag checks
in source order, then the entry lookup. -/
def RFP.can_fetch (rp : RFP) (url : String) : Bool :=
  if rp.disallow_all then false
  else if rp.allow_all then true
  else if !rp.last_checked then false
  else rp.entriesAllow url

/-- Outcome of `urllib.request.urlopen` on a robots.txt URL: a 2xx body
(whose parsed entries are abstracted as their allowance function), an
`HTTPError` carrying the status code, or an escaping exception
(`URLError`, timeout). -/
inductive UrlopenOutcome where
  | ok (entriesAllow : String → Bool)
  | httpError (code : Nat)
  | exc

/-- Model of `RobotFileParser.read()`: an escaping exception propagates
(`.error`); an `HTTPError` is absorbed — 401/403 set `disallow_all`,
other 4xx set `allow_all`, any other code sets no flag and skips the
parse (`last_checked` stays 0); a 2xx body is parsed (`parse` calls
`modified()`, setting `last_checked`). -/
def rfp_read (o : UrlopenOutcome) : Except Unit RFP :=
  match o with
  | .exc => .error ()
  | .httpError code =>
    if code = 401 ∨ code = 403 then .ok ⟨true, false, false, fun _ => true⟩
    else if 400 ≤ code ∧ code < 500 then .ok ⟨false, true, false, fun _ => true⟩
    else .ok ⟨false, false, false, fun _ => true⟩
  | .ok entriesAllow => .ok ⟨false, false, true, entriesAllow⟩

/-- Translation of `PageFetcher.is_allowed_by_robots`.  The cache is
keyed by the robots URL; on a cache miss `read()` runs (one robots.txt
fetch): if it returns, the parser — including the absorbed-`HTTPError`
outcomes — is cached and answers via `can_fetch`; only if it raises does
the method return `True`, without caching. -/
def pf_is_allowed_by_robots (oracle : String → UrlopenOutcome)
    (cache : List (String × RFP)) (robotsUrl url : String) :
    Bool × List (String × RFP) × Nat :=
  match cache.lookup robotsUrl with
  | some rp => (rp.can_fetch url, cache, 0)
  | none =>
    match rfp_read (oracle robotsUrl) with
    | .ok rp => (rp.can_fetch url, (robotsUrl, rp) :: cache, 1)
    | .error _ => (true, cache, 1)

/-- Translation of the retry loop of `PageFetcher.fetch`: `while attempt
< max_retries: try GET; on success return text; on failure attempt += 1;
time.sleep(2 ** attempt)`.  The loop is driven by the remaining attempt
budget `remaining = max_retries - attempt` (the loop guard `attempt <
max_retries` is exactly `remaining > 0`).  The `oracle` gives each
attempt's outcome (`some body` = 2xx with body); the result is the
returned value together with the list of sleep durations in order. -/
def fetch_attempts (oracle : Nat → Option String) : Nat → Nat → Option String × List Nat
  | 0, _ => (none, [])
  | remaining + 1, attempt =>
    match oracle attempt with
    | some body => (some body, [])
    | none =>
      let r := fetch_attempts oracle remaining (attempt + 1)
      (r.1, 2 ^ (attempt + 1) :: r.2)

/-- Translation of `PageFetcher.fetch`: the robots gate first (returning
`None` with no attempt when blocked), then the retry loop from attempt 0
with budget `max_retries`. -/
def page_fetcher_fetch (robotsAllowed : Bool) (oracle : Nat → Option String)
    (maxRetries : Nat) : Option String × List Nat :=
  if robotsAllowed then fetch_attempts oracle maxRetries 0 else (none, [])

/-- An attempt oracle for a URL whose fetch fails on every attempt. -/
def allFail : Nat → Option String := fun _ => none

/-! ## `politeness_policy.PolitenessPolicy.respect_delay`

`respect_delay` reads `current_time = time.time()`, sleeps for `delay -
elapsed` when `elapsed = current_time - last < delay`, and then stores
`last_access_times[host] = current_time` — the PRE-sleep snapshot, not
the time at which it returns.  The model returns (return time, stored
timestamp); only the configured default `delay` is consulted (the robots
`crawl_delay` does not reach this code). -/

def respect_delay (delay : Nat) (last : Option Nat) (now : Nat) : Nat × Nat :=
  match last with
  | some t => if now - t < delay then (t + delay, now) else (now, now)
  | none => (now, now)

/-- Return times of a sequence of `respect_delay` calls for one host,
threading the stored timestamp. -/
def politeness_trace (delay : Nat) : Option Nat → List Nat → List Nat
  | _, [] => []
  | last, c :: cs =>
    let r := respect_delay delay last c
    r.1 :: politeness_trace delay (some r.2) cs

def politeness_run (delay : Nat) (calls : List Nat) : List Nat :=
  politeness_trace delay none calls

/-- Validity of a sequential single-worker trace: each `respect_delay`
call happens no earlier than the previous call's return (the worker only
calls again after the previous wait finished; fetches may take zero
time). -/
def calls_follow_returns (delay : Nat) : Option Nat → Nat → List Nat → Bool
  | _, _, [] => true
  | last, prevRet, c :: cs =>
    let r := respect_delay delay last c
    decide (prevRet ≤ c) && calls_follow_returns delay (some r.2) r.1 cs

/-- Adjacent elements of a list are spaced by at least `d`. -/
def gaps_ge (d : Nat) : List Nat → Bool
  | a :: b :: rest => decide (a + d ≤ b) && gaps_ge d (b :: rest)
  | _ => true

/-! ## `crawler_manager.CrawlerManager`

Sequential model of one worker.  `cm_crawl` is the body of
`CrawlerManager.crawl(url)`: the page is fetched (logged in `fetchLog`),
the URL is added to `crawled_urls` IF NOT ALREADY THERE (and this
happens after the fetch), and each extracted link is enqueued iff it is
not in `crawled_urls` at push time.  `page_fetcher.fetch` is modeled as
succeeding for every URL with links given by the `links` oracle, and the
robots gate is modeled as allowing every URL: the claims under study
concern the dedup and scheduling discipline, not the robots gate (the
source's `can_crawl` calls `self.robots_parser.parse(url)` and
`.allowed(url)`, methods its `RobotsParser` class does not define, so
read literally the gate raises `AttributeError` for every URL — it never
implements the claimed discipline either way). -/

structure CMState where
  queue : List String
  crawled : List String
  fetchLog : List String
deriving DecidableEq, Repr

def cm_crawl (links : String → List String) (st : CMState) (url : String) : CMState :=
  let log1 := st.fetchLog ++ [url]
  let crawled1 := if st.crawled.contains url then st.crawled else st.crawled ++ [url]
  let pushed := (links url).filter (fun u => !(crawled1.contains u))
  { queue := st.queue ++ pushed, crawled := crawled1, fetchLog := log1 }

/-- The single-worker loop of `CrawlerManager.worker`: pop while the
queue is non-empty and run `crawl` on each popped URL.  `fuel` bounds the
number of iterations the model executes. -/
def cm_worker (links : String → List String) : Nat → CMState → CMState
  | 0, st => st
  | fuel + 1, st =>
    match st.queue with
    | [] => st
    | url :: rest => cm_worker links fuel (cm_crawl links { st with queue := rest } url)

/-- A crawl run: the constructor enqueues every seed unconditionally,
then the worker drains the queue. -/
def cm_run (links : String → List String) (seeds : List String) (fuel : Nat) : CMState :=
  cm_worker links fuel ⟨seeds, [], []⟩

/-! ## Two-worker interleaving of `CrawlerManager.worker`

Each worker executes `while not self.url_queue.empty(): url =
self.url_queue.get(); ...process...`.  Program counters: `checkE` is the
`empty()` test, `getQ` is the pending (blocking) `Queue.get()` call,
`proc u` is the processing of a popped URL, and `stopped` is loop exit.
`Queue.get()` with an empty queue blocks, so a worker at `getQ` with an
empty queue has no enabled transition.  Processing is modeled atomically
with the same body as `cm_crawl`. -/

inductive WPC where
  | checkE
  | getQ
  | proc (url : String)
  | stopped
deriving DecidableEq, Repr

structure CM2State where
  queue : List String
  crawled : List String
  w1 : WPC
  w2 : WPC
deriving DecidableEq, Repr

/-- Queue and crawled-set update performed by processing `url` (the body
of `CrawlerManager.crawl`, as in `cm_crawl`). -/
def crawlBody (links : String → List String) (queue crawled : List String) (url : String) :
    List String × List String :=
  let crawled1 := if crawled.contains url then crawled else crawled ++ [url]
  (queue ++ (links url).filter (fun u => !(crawled1.contains u)), crawled1)

inductive CMStep (links : String → List String) : CM2State → CM2State → Prop
  | check1_go (s : CM2State) (h : s.w1 = .checkE) (hq : s.queue ≠ []) :
      CMStep links s { s with w1 := .getQ }
  | check1_stop (s : CM2State) (h : s.w1 = .checkE) (hq : s.queue = []) :
      CMStep links s { s with w1 := .stopped }
  | get1 (s : CM2State) (u : String) (rest : List String)
      (h : s.w1 = .getQ) (hq : s.queue = u :: rest) :
      CMStep links s { s with queue := rest, w1 := .proc u }
  | proc1 (s : CM2State) (u : String) (h : s.w1 = .proc u) :
      CMStep links s { s with queue := (crawlBody links s.queue s.crawled u).1,
                              crawled := (crawlBody links s.queue s.crawled u).2,
                              w1 := .checkE }
  | check2_go (s : CM2State) (h : s.w2 = .checkE) (hq : s.queue ≠ []) :
      CMStep links s { s with w2 := .getQ }
  | check2_stop (s : CM2State) (h : s.w2 = .checkE) (hq : s.queue = []) :
      CMStep links s { s with w2 := .stopped }
  | get2 (s : CM2State) (u : String) (rest : List String)
      (h : s.w2 = .getQ) (hq : s.queue = u :: rest) :
      CMStep links s { s with queue := rest, w2 := .proc u }
  | proc2 (s : CM2State) (u : String) (h : s.w2 = .proc u) :
      CMStep links s { s with queue := (crawlBody links s.queue s.crawled u).1,
                              crawled := (crawlBody links s.queue s.crawled u).2,
                              w2 := .checkE }

/-- A web in which no page links anywhere (the seed page has no
outlinks). -/
def noLinks : String → List String := fun _ => []

/-- Start state of a two-worker run on the single seed `"b"`. -/
def cmInit : CM2State := ⟨["b"], [], .checkE, .checkE⟩

/-- The deadlocked state: worker 1 is blocked inside `Queue.get()` on an
empty queue, worker 2 has exited its loop. -/
def cmDead : CM2State := ⟨[], ["b"], .getQ, .stopped⟩

/-! ## Theorems

First the literal-matching facts about `re.escape`d patterns (claim C10
and the lemmas the robots theorems reuse). -/

theorem reEscapeL_head (p : List Char) (c : Char) (l : List Char)
    (h : reEscapeL p = c :: l) : c = '\\' ∨ reSpecial c = false := by
  cases p with
  | nil => simp [reEscapeL] at h
  | cons a rest =>
    by_cases ha : reSpecial a
    · simp [reEscapeL, ha] at h
      exact Or.inl h.1.symm
    · simp [reEscapeL, ha] at h
      rw [← h.1]
      exact Or.inr (by simpa using ha)

theorem lexRe_backslash (c : Char) (l : List Char) :
    lexRe ('\\' :: c :: l) = .lit c :: lexRe l := by
  simp [lexRe]

theorem lexRe_reEscapeL (p : List Char) : lexRe (reEscapeL p) = p.map Tok.lit := by
  induction p with
  | nil => simp [reEscapeL, lexRe]
  | cons c rest ih =>
    by_cases hc : reSpecial c
    · have : reEscapeL (c :: rest) = '\\' :: c :: reEscapeL rest := by
        simp [reEscapeL, hc]
      rw [this, lexRe_backslash, ih]
      simp
    · have hne : reEscapeL (c :: rest) = c :: reEscapeL rest := by
        simp [reEscapeL, hc]
      rw [hne]
      have hcb : c ≠ '\\' := by
        intro h
        rw [h] at hc
        simp [reSpecial] at hc
      have hcd : c ≠ '$' := by
        intro h
        rw [h] at hc
        simp [reSpecial] at hc
      have hcdot : c ≠ '.' := by
        intro h
        rw [h] at hc
        simp [reSpecial] at hc
      cases htail : reEscapeL rest with
      | nil =>
        simp [lexRe, hcb, hcd, hcdot]
        rw [htail] at ih
        simp [lexRe] at ih
        simp [← ih]
      | cons d l =>
        have hd : d ≠ '*' := by
          rcases reEscapeL_head rest d l htail with h | h
          · intro he
            rw [he] at h
            exact absurd h (by decide)
          · intro he
            rw [he] at h
            simp [reSpecial] at h
        simp [lexRe, hcb, hd, hcd, hcdot]
        rw [← htail, ih]

theorem matchToks_lit (p s : List Char) :
    matchToks (p.map Tok.lit) s = p.isPrefixOf s := by
  induction p generalizing s with
  | nil => simp [matchToks, List.isPrefixOf]
  | cons c rest ih =>
    cases s with
    | nil => simp [matchToks, List.isPrefixOf]
    | cons a s2 => simp [matchToks, List.isPrefixOf, ih]

/-- Helper equivalence: an escaped pattern prefix-matches exactly the
subjects that literally start with the original characters. -/
theorem reMatch_reEscapeL (p s : List Char) :
    reMatch (reEscapeL p) s = p.isPrefixOf s := by
  rw [reMatch, lexRe_reEscapeL, matchToks_lit]

/-- Claim C10: robots patterns match literally.  `Disallow` / `Allow`
values are stored escaped (`reEscapeL`) and matched anchored at the start
of the path (`reMatch`); for every stored pattern and every path the
pattern matches if and only if the path literally starts with the
pattern's characters, so `*` or `$` inside a robots path value never act
as wildcards. -/
theorem escaped_patterns_literal (p s : List Char) :
    reMatch (reEscapeL p) s = true ↔ p.isPrefixOf s = true := by
  rw [reMatch_reEscapeL]

/-- Counterexample to C6's example: a robots.txt whose entire content is
the single line `Disallow: /admin` opens no `User-agent` group, so
`parse_robots` drops the rule and `is_allowed` stays `true` even for
paths under `/admin` — not "false for exactly those URLs whose path
starts with /admin". -/
theorem bare_disallow_line_dropped :
    parse_robots "*".toList "Disallow: /admin".toList = .ok RPState.empty
    ∧ is_allowed RPState.empty "/admin/x".toList = true :=
  ⟨rfl, rfl⟩

/-- Claim C6 (amended): for every parsed rule set and path, `is_allowed`
returns true when an Allow pattern matches (Allow is checked before
Disallow, so an Allow match takes precedence), false when no Allow
matches but some Disallow matches, and true when nothing matches; and for
a robots.txt whose applicable group (here opened by `User-agent: *`)
contains only `Disallow: /admin`, `is_allowed` is false exactly for the
paths starting with `/admin`. -/
theorem is_allowed_precedence :
    (∀ (st : RPState) (path : List Char),
        st.allow.any (fun r => reMatch r path) = true → is_allowed st path = true)
    ∧ (∀ (st : RPState) (path : List Char),
        st.allow.any (fun r => reMatch r path) = false →
        st.disallow.any (fun r => reMatch r path) = true → is_allowed st path = false)
    ∧ (∀ (st : RPState) (path : List Char),
        st.allow.any (fun r => reMatch r path) = false →
        st.disallow.any (fun r => reMatch r path) = false → is_allowed st path = true)
    ∧ ∃ st : RPState,
        parse_robots "*".toList "User-agent: *\nDisallow: /admin".toList = .ok st
        ∧ ∀ path : List Char,
            (is_allowed st path = false ↔ "/admin".toList.isPrefixOf path = true) := by
  refine ⟨?_, ?_, ?_, ⟨⟨[reEscapeL "/admin".toList], [], none, []⟩, rfl, ?_⟩⟩
  · intro st path h
    simp [is_allowed, h]
  · intro st path h1 h2
    simp [is_allowed, h1, h2]
  · intro st path h1 h2
    simp [is_allowed, h1, h2]
  · intro path
    simp only [is_allowed, List.any_nil, List.any_cons, Bool.or_false, reMatch_reEscapeL]
    by_cases h : "/admin".toList.isPrefixOf path <;> simp [h]

/-- Witness for `is_allowed_precedence`: a rule set whose Allow and
Disallow lists hold the same pattern allows a matching path (Allow takes
precedence). -/
theorem is_allowed_precedence_witness :
    is_allowed ⟨[reEscapeL "/a".toList], [reEscapeL "/a".toList], none, []⟩ "/ab".toList
      = true :=
  is_allowed_precedence.1 ⟨[reEscapeL "/a".toList], [reEscapeL "/a".toList], none, []⟩
    "/ab".toList rfl

/-- Counterexample to C7: with configured agent `MyBot`, the rules of a
`User-agent: *` group are NOT applied (the source tests
`self.user_agent == '*' or current_user_agent == self.user_agent`), so
the `*` group is not a fallback for a named agent and `/x` stays
allowed. -/
theorem star_group_not_fallback :
    parse_robots "MyBot".toList "User-agent: *\nDisallow: /x".toList = .ok RPState.empty
    ∧ is_allowed RPState.empty "/x".toList = true :=
  ⟨rfl, rfl⟩

/-- Claim C7 (amended): in `RobotsParser.parse_robots` a group's rules
are applied iff the configured agent name is `*` (in which case EVERY
group applies, other agents' groups included) or the group's token equals
the configured agent name; a `*` group is not a fallback for a named
configured agent. -/
theorem group_applicability_actual (ua : List Char) :
    (Except.map RPState.disallow (parse_robots ua "User-agent: Bot\nDisallow: /x".toList)
      = .ok (if ua = "*".toList ∨ ua = "Bot".toList then [reEscapeL "/x".toList] else []))
    ∧ (Except.map RPState.disallow (parse_robots ua "User-agent: *\nDisallow: /x".toList)
      = .ok (if ua = "*".toList then [reEscapeL "/x".toList] else [])) := by
  constructor
  · by_cases h1 : ua = "*".toList
    · subst h1
      rfl
    · by_cases h2 : ua = "Bot".toList
      · subst h2
        rfl
      · have h1L : ¬ua = ['*'] := h1
        have h2L : ¬ua = ['B', 'o', 't'] := h2
        have h2R : ¬(['B', 'o', 't'] : List Char) = ua := fun h => h2L h.symm
        have hcl : (splitChar '\n' "User-agent: Bot\nDisallow: /x".toList).map classifyLine
            = [.uaDecl "Bot".toList,
               .plain (.addDisallow (reEscapeL "/x".toList)) false "/x".toList] := rfl
        rw [parse_robots, hcl]
        simp [List.foldlM, robotsStep, Bind.bind, Except.bind, Except.map, h1L, h2L, h2R]
        rfl
  · by_cases h1 : ua = "*".toList
    · subst h1
      rfl
    · have h1L : ¬ua = ['*'] := h1
      have h1R : ¬(['*'] : List Char) = ua := fun h => h1L h.symm
      have hcl : (splitChar '\n' "User-agent: *\nDisallow: /x".toList).map classifyLine
          = [.uaDecl "*".toList,
             .plain (.addDisallow (reEscapeL "/x".toList)) false "/x".toList] := rfl
      rw [parse_robots, hcl]
      simp [List.foldlM, robotsStep, Bind.bind, Except.bind, Except.map, h1L, h1R]
      rfl

/-- Claim C8 evaluation: both robots parsers raise on a `Crawl-delay`
line whose value does not parse as a number (`int(...)` / `float(...)`
with no guard); the parse aborts instead of skipping the line, so the
following `Disallow` is never recorded. -/
theorem crawl_delay_malformed_raises :
    parse_robots "*".toList "User-agent: *\nCrawl-delay: abc\nDisallow: /x".toList
      = .error ()
    ∧ ppParse "*".toList "User-agent: *\nCrawl-delay: abc\nDisallow: /x".toList
      = .error () :=
  ⟨rfl, rfl⟩

/-- Counterexample to C3: in `PageFetcher.is_allowed_by_robots` a
non-200 robots status does NOT fail open.  `RobotFileParser.read()`
absorbs the `HTTPError`: a 403 sets `disallow_all` and a 500 leaves the
parser unread (`last_checked` 0), and in both cases `can_fetch` denies
every URL on the host — the opposite of the claimed "check returns
allowed". -/
theorem pf_robots_non200_fail_closed :
    (pf_is_allowed_by_robots (fun _ => .httpError 403) [] "http://h/robots.txt"
      "http://h/a").1 = false
    ∧ (pf_is_allowed_by_robots (fun _ => .httpError 500) [] "http://h/robots.txt"
      "http://h/a").1 = false :=
  ⟨rfl, rfl⟩

/-- Claim C3 (amended): how each robots path handles failure.  In
`PolitenessPolicy.can_fetch`, a raising robots fetch (network error /
timeout) answers `True` with nothing cached, and a non-200 status yields
the empty rule set — every path allowed, no crawl delay.  In
`PageFetcher.is_allowed_by_robots`, only a raising `read()` fails open
(`True`, nothing cached); a non-200 status is absorbed by the stdlib
`RobotFileParser` and the cached outcome fail-CLOSES on 401/403
(`disallow_all`) and on any code outside 400–499 (robots never parsed),
while the remaining 4xx codes fail open (`allow_all`). -/
theorem robots_failure_semantics (ua : List Char) (oracle : String → HttpOutcome)
    (cache : List (String × PPRobots)) (host : String) (path : List Char)
    (hmiss : cache.lookup host = none) (hexc : oracle host = .exc) :
    pp_can_fetch ua oracle cache host path = (true, cache, 1)
    ∧ (∀ (code : Nat) (body : List Char), ¬code = 200 →
        ppResolve ua (.status code body) = some PPRobots.empty)
    ∧ (∀ p : List Char, ppCanFetchPath PPRobots.empty p = true)
    ∧ PPRobots.empty.crawl_delay = none
    ∧ (∀ (oracle2 : String → UrlopenOutcome) (cache2 : List (String × RFP))
        (rUrl url : String), cache2.lookup rUrl = none → oracle2 rUrl = .exc →
        pf_is_allowed_by_robots oracle2 cache2 rUrl url = (true, cache2, 1))
    ∧ (∀ (code : Nat) (url : String), code = 401 ∨ code = 403 →
        (rfp_read (.httpError code)).map (fun rp => rp.can_fetch url) = .ok false)
    ∧ (∀ (code : Nat) (url : String), ¬(400 ≤ code ∧ code < 500) →
        (rfp_read (.httpError code)).map (fun rp => rp.can_fetch url) = .ok false)
    ∧ (∀ (code : Nat) (url : String),
        400 ≤ code → code < 500 → ¬code = 401 → ¬code = 403 →
        (rfp_read (.httpError code)).map (fun rp => rp.can_fetch url) = .ok true) := by
  refine ⟨?_, ?_, fun p => rfl, rfl, ?_, ?_, ?_, ?_⟩
  · simp [pp_can_fetch, hmiss, hexc, ppResolve]
  · intro code body hc
    simp [ppResolve, hc]
  · intro oracle2 cache2 rUrl url hm hx
    simp [pf_is_allowed_by_robots, hm, hx, rfp_read]
  · intro code url h
    rcases h with h | h <;> subst h <;> rfl
  · intro code url h
    have h1 : ¬(code = 401 ∨ code = 403) := by omega
    simp only [rfp_read, if_neg h1, if_neg h]
    rfl
  · intro code url h40 h50 hne1 hne2
    have h1 : ¬(code = 401 ∨ code = 403) := by omega
    have h2 : 400 ≤ code ∧ code < 500 := ⟨h40, h50⟩
    simp only [rfp_read, if_neg h1, if_pos h2]
    rfl

/-- Witness for `robots_failure_semantics` at a concrete failing host. -/
theorem robots_failure_semantics_witness :
    pp_can_fetch "*".toList (fun _ => HttpOutcome.exc) [] "h" "/x".toList = (true, [], 1) :=
  (robots_failure_semantics "*".toList (fun _ => HttpOutcome.exc) [] "h" "/x".toList
    rfl rfl).1

/-- Counterexample to C4: a failed robots resolution is NOT cached, so a
second robots query for the same host in the same run issues a second
robots.txt fetch — two fetches for one host, not at most one. -/
theorem robots_failure_refetched :
    (pp_can_fetch "*".toList (fun _ => HttpOutcome.exc) [] "h" "/a".toList).2.2
      + (pp_can_fetch "*".toList (fun _ => HttpOutcome.exc)
          (pp_can_fetch "*".toList (fun _ => HttpOutcome.exc) [] "h" "/a".toList).2.1
          "h" "/b".toList).2.2 = 2
    ∧ ¬(2 ≤ 1) :=
  ⟨rfl, by decide⟩

/-- Claim C4 (amended): only a SUCCESSFUL first robots resolution is
cached: the first query for a host fetches robots.txt once and stores the
parser, and a later query for the same host is answered from the cache
with no further fetch. -/
theorem robots_success_cached (ua : List Char) (oracle : String → HttpOutcome)
    (host : String) (p1 p2 : List Char) (r : PPRobots)
    (hres : ppResolve ua (oracle host) = some r) :
    pp_can_fetch ua oracle [] host p1 = (ppCanFetchPath r p1, [(host, r)], 1)
    ∧ pp_can_fetch ua oracle [(host, r)] host p2 = (ppCanFetchPath r p2, [(host, r)], 0) := by
  constructor
  · simp [pp_can_fetch, hres]
  · simp [pp_can_fetch, List.lookup]

/-- Witness for `robots_success_cached`: a host whose robots.txt is an
empty 200 body. -/
theorem robots_success_cached_witness :
    pp_can_fetch "*".toList (fun _ => HttpOutcome.status 200 []) [] "h" "/a".toList
      = (ppCanFetchPath PPRobots.empty "/a".toList, [("h", PPRobots.empty)], 1) :=
  (robots_success_cached "*".toList (fun _ => HttpOutcome.status 200 []) "h"
    "/a".toList "/b".toList PPRobots.empty rfl).1

/-- Counterexample to C5: with `max_retries = 3` and every attempt
failing, the sleeps are 2, 4, 8 seconds (`2 ** attempt` AFTER
`attempt += 1`), not the claimed `base * 2^i` schedule 1, 2, 4. -/
theorem backoff_schedule_counterexample :
    (page_fetcher_fetch true allFail 3).2 = [2, 4, 8]
    ∧ ¬((page_fetcher_fetch true allFail 3).2 = [1, 2, 4]) :=
  ⟨rfl, by decide⟩

theorem fetch_attempts_allFail (k a : Nat) :
    fetch_attempts allFail k a = (none, (List.range k).map (fun i => 2 ^ (a + i + 1))) := by
  induction k generalizing a with
  | zero => simp [fetch_attempts]
  | succ k ih =>
    rw [fetch_attempts]
    simp only [allFail, ih (a + 1), List.range_succ_eq_map, List.map_cons, List.map_map]
    refine Prod.ext rfl ?_
    simp [Function.comp]
    intro i _
    omega

/-- Claim C5 (amended): for a URL failing on every attempt, `fetch`
performs at most `max_retries` attempts and sleeps `2^(i+1)` seconds
after failed attempt `i` (counted from 0) — including a final sleep after
the last attempt — then returns `None` (no error description). -/
theorem backoff_schedule_actual (n : Nat) :
    page_fetcher_fetch true allFail n
      = (none, (List.range n).map (fun i => 2 ^ (i + 1))) := by
  rw [page_fetcher_fetch, if_pos rfl, fetch_attempts_allFail]
  simp

/-- Counterexample to C2: with default delay 2 and no robots delay, the
single-worker call trace at times 0, 0, 2 is valid (each call happens at
or after the previous return) yet yields fetch starts 0, 2, 2 — the
second and third fetch to the host start 0 seconds apart, violating the
claimed `≥ delay(H)` spacing.  The cause: `respect_delay` stores the
PRE-sleep timestamp. -/
theorem politeness_spacing_violated :
    politeness_run 2 [0, 0, 2] = [0, 2, 2]
    ∧ calls_follow_returns 2 none 0 [0, 0, 2] = true
    ∧ gaps_ge 2 (politeness_run 2 [0, 0, 2]) = false :=
  ⟨rfl, rfl, rfl⟩

/-- Claim C2 (amended): `respect_delay` consults only the configured
default delay (never the robots crawl delay) and stores the call-entry
timestamp; what it guarantees is that its return time is at least the
previously RECORDED timestamp plus the delay — not that consecutive
return (fetch-start) times are spaced by the delay. -/
theorem respect_delay_actual_bound (delay t now : Nat) (h : t ≤ now) :
    t + delay ≤ (respect_delay delay (some t) now).1
    ∧ (respect_delay delay (some t) now).2 = now := by
  rw [respect_delay]
  by_cases hc : now - t < delay
  · simp [hc]
  · simp [hc]
    omega

/-- Witness for `respect_delay_actual_bound`. -/
theorem respect_delay_actual_bound_witness :
    0 + 2 ≤ (respect_delay 2 (some 0) 0).1 ∧ (respect_delay 2 (some 0) 0).2 = 0 :=
  respect_delay_actual_bound 2 0 0 (Nat.le_refl 0)

/-- Counterexample to C1: `CrawlerManager` seeds the queue without any
dedup check and only adds a URL to `crawled_urls` AFTER fetching it, so
the run on seed list `["b", "b"]` fetches `b` twice — not at most
once. -/
theorem url_fetched_twice :
    (cm_run noLinks ["b", "b"] 5).fetchLog = ["b", "b"]
    ∧ ¬((cm_run noLinks ["b", "b"] 5).fetchLog.count "b" ≤ 1) :=
  ⟨rfl, by decide⟩

/-- Claim C1 (amended): the dedup check happens at push time, but against
`crawled_urls`, which records a URL only once it has been fetched; hence
a link to an already-crawled URL is never re-enqueued, while a URL
discovered again before its first fetch can be enqueued and fetched more
than once.  Formally: every URL `cm_crawl` appends to the queue is absent
from the crawled set as updated by that call. -/
theorem push_filters_crawled_set (links : String → List String) (st : CMState)
    (url u : String) (h : u ∈ (cm_crawl links st url).queue) :
    u ∈ st.queue ∨ (u ∈ links url ∧ ¬u ∈ (cm_crawl links st url).crawled) := by
  simp only [cm_crawl] at h ⊢
  rcases List.mem_append.mp h with hq | hf
  · exact Or.inl hq
  · right
    have hm := List.mem_filter.mp hf
    refine ⟨hm.1, ?_⟩
    have hc := hm.2
    simp at hc
    simpa using hc

/-- Witness for `push_filters_crawled_set`: a freshly discovered link is
pushed and is not in the crawled set. -/
theorem push_filters_crawled_set_witness :
    "c" ∈ (⟨[], [], []⟩ : CMState).queue
    ∨ ("c" ∈ (fun _ => ["c"] : String → List String) "b"
        ∧ ¬"c" ∈ (cm_crawl (fun _ => ["c"]) ⟨[], [], []⟩ "b").crawled) :=
  push_filters_crawled_set (fun _ => ["c"]) ⟨[], [], []⟩ "b" "c" (by decide)

/-- Claim C9 evaluation: the two-worker run on one seed can deadlock.
Both workers pass the `empty()` check; worker 2's `get()` takes the only
item and finishes; worker 1 is left blocked forever inside `Queue.get()`
on the now-empty queue.  The deadlock state is reachable, has no enabled
transition, and is not a state in which all workers stopped — the run
neither completes nor can proceed. -/
theorem worker_queue_race_deadlock :
    Relation.ReflTransGen (CMStep noLinks) cmInit cmDead
    ∧ (∀ t, ¬CMStep noLinks cmDead t)
    ∧ ¬(cmDead.w1 = .stopped ∧ cmDead.w2 = .stopped) := by
  refine ⟨?_, ?_, by decide⟩
  · exact .head (CMStep.check1_go cmInit rfl (by decide))
      (.head (CMStep.check2_go _ rfl (by decide))
        (.head (CMStep.get2 _ "b" [] rfl rfl)
          (.head (CMStep.proc2 _ "b" rfl)
            (.head (CMStep.check2_stop _ rfl rfl) .refl))))
  · intro t h
    cases h <;> simp_all [cmDead]

end Crawler
